import Mathlib

/-!
Verification of the pdf2image Dify plugin (`src/tools/pdf2image.py`,
`Pdf2imageTool._invoke`).

The tool receives an optional list of input files, each a filename plus a
byte blob, and streams back messages: human-readable Text, binary Blob
(PNG with metadata), or structured Json error detail.  The PDF rendering
engine (PyMuPDF) and the imaging library (Pillow) are external black
boxes; we embed each call to them through an oracle (`PdfOutcome`) that
records, for one file's bytes, how the engine behaves: the open call
raises, some page render raises, the composite encoding raises, or all
pages render with given pixel dimensions.

The embedding mirrors the Python control flow statement by statement:
the `files is None` guard, the two-way import of pymupdf/fitz with the
outer `except ImportError`, the Pillow import guard, the per-file
`try/except Exception` that emits Text plus Json and continues, the
`doc.close()` placement (notably NOT in a `finally`), the zero-page
check, the vertical compositing (width = max, height = sum, paste at
x = 0 and running y offset), and the `rsplit` filename mapping.
-/

set_option autoImplicit false

namespace Pdf2image

/-- One rendered page, as produced by `page.get_pixmap()`: a pixel
buffer of the given width and height.  The claims under verification
are about message sequencing and composite geometry, so the pixel
contents are abstracted away and only the dimensions are kept. -/
structure Page where
  width : Nat
  height : Nat
deriving DecidableEq, Repr

/-- The composite image built by the per-file loop: the dimensions
passed to `Image.new` and the list of `(x, y)` positions passed to the
successive `combined_image.paste(img, (0, y_offset))` calls, in page
order. -/
structure Composite where
  width : Nat
  height : Nat
  pastes : List (Nat × Nat)
deriving DecidableEq, Repr

/-- A streamed result message (`ToolInvokeMessage`):
`create_text_message`, `create_blob_message` (with its metadata
mime type and filename; the PNG bytes are abstracted by the composite
geometry), or `create_json_message` for the per-file error mapping
of shape filename maps-to error. -/
inductive Message where
  | text (s : String)
  | blob (mimeType : String) (filename : String) (image : Composite)
  | json (filename : String) (error : String)
deriving DecidableEq, Repr

instance : Inhabited Message := ⟨Message.text ""⟩

/-- Oracle for the rendering pipeline on one file's bytes: what the
black-box engine calls do when the per-file body runs.
* `openError e`: `fitz_module.open(...)` raises with message `e`;
* `renderError e`: open succeeds but some `load_page`/`get_pixmap`/
  `Image.frombytes` call raises with message `e` before all pages
  are rendered;
* `encodeError pages e`: all pages render (with the given dimensions)
  and `doc.close()` runs, but `Image.new`/`paste`/`save` raises `e`;
* `ok pages`: every call succeeds, producing pages with the given
  dimensions in document order. -/
inductive PdfOutcome where
  | openError (e : String)
  | renderError (e : String)
  | encodeError (pages : List Page) (e : String)
  | ok (pages : List Page)
deriving DecidableEq, Repr

/-- An input file as supplied by the host: its filename together with
the rendering oracle for its byte blob. -/
structure InputFile where
  filename : String
  pdf : PdfOutcome
deriving DecidableEq, Repr

/-- Availability of the external libraries at import time, plus the
message carried by the `ImportError` when both PDF-library names fail. -/
structure Deps where
  pymupdfOk : Bool
  fitzOk : Bool
  pillowOk : Bool
  fitzErr : String
deriving DecidableEq, Repr

/-- `filename.rsplit(chr(46), 1)[0]` on the character list of the
filename: the part of the string before the last dot, or the whole
string when it has no dot. -/
def stemChars : List Char → List Char
  | [] => []
  | c :: cs => if c = '.' ∧ '.' ∉ cs then [] else c :: stemChars cs

/-- The Blob metadata filename built by the tool: stem of the original
filename (text before the last dot, or the whole name if there is no
dot) with `.png` appended. -/
def pngFilename (s : String) : String :=
  String.mk (stemChars s.data) ++ ".png"

/-- The `(0, y_offset)` paste positions of the compositing loop,
starting from accumulated offset `y`: each page is pasted at x = 0 and
the offset then grows by that page's height. -/
def pasteOffsets : List Page → Nat → List (Nat × Nat)
  | [], _ => []
  | p :: ps, y => (0, y) :: pasteOffsets ps (y + p.height)

/-- The composite image built from the rendered pages:
`total_width = max(img.width ...)`, `total_height = sum(img.height ...)`
(on the non-empty lists this is applied to, the fold with initial
value 0 agrees with Python's `max`/`sum`), and the paste positions of
the loop. -/
def compositeFor (pages : List Page) : Composite :=
  { width := (pages.map Page.width).foldl Nat.max 0
    height := (pages.map Page.height).foldl (· + ·) 0
    pastes := pasteOffsets pages 0 }

/-- The two messages emitted by the per-file `except Exception` handler:
`create_text_message` with the formatted error and `create_json_message`
with the filename-to-error mapping. -/
def errorMessages (filename e : String) : List Message :=
  [Message.text ("Error processing " ++ filename ++ ": " ++ e),
   Message.json filename e]

/-- Result of one iteration of the per-file loop: the messages yielded
for this file, whether `fitz_module.open` returned a document, and
whether `doc.close()` was reached. -/
structure FileResult where
  messages : List Message
  opened : Bool
  closed : Bool
deriving DecidableEq, Repr

/-- One iteration of `for file in files`, following the Python body:
open the document, render each page, `doc.close()`, the `if not images`
zero-page check, compositing and PNG encoding, the Blob yield; any
exception in the body is caught by the `except Exception` handler which
yields the Text and Json error pair.  `doc.close()` sits between the
page loop and the zero-page check, not in a `finally`, so it is skipped
when opening or rendering raises. -/
def processFile (f : InputFile) : FileResult :=
  match f.pdf with
  | PdfOutcome.openError e =>
      ⟨errorMessages f.filename e, false, false⟩
  | PdfOutcome.renderError e =>
      ⟨errorMessages f.filename e, true, false⟩
  | PdfOutcome.encodeError pages e =>
      if pages.isEmpty then
        ⟨[Message.text ("No pages found in " ++ f.filename)], true, true⟩
      else
        ⟨errorMessages f.filename e, true, true⟩
  | PdfOutcome.ok pages =>
      if pages.isEmpty then
        ⟨[Message.text ("No pages found in " ++ f.filename)], true, true⟩
      else
        ⟨[Message.blob "image/png" (pngFilename f.filename) (compositeFor pages)],
         true, true⟩

/-- The messages yielded for a list of files by the per-file loop, in
input order. -/
def fileMsgs (files : List InputFile) : List Message :=
  (files.map fun f => (processFile f).messages).flatten

/-- `Pdf2imageTool._invoke`: the `files is None` guard first; then,
inside the outer try, the pymupdf/fitz two-way import (when both fail,
the `ImportError` reaches the outer handler, which yields one Text),
then the Pillow import guard (on failure one Text and return), then the
per-file loop. -/
def invoke (filesParam : Option (List InputFile)) (d : Deps) : List Message :=
  match filesParam with
  | none =>
      [Message.text "No files provided. Please upload PDF files for processing."]
  | some files =>
      if !d.pymupdfOk && !d.fitzOk then
        [Message.text ("Error: Required library not installed. " ++ d.fitzErr)]
      else if !d.pillowOk then
        [Message.text
          "Error: Pillow library not installed. Please install it with \x27pip install Pillow\x27."]
      else
        fileMsgs files

/-- Both external libraries resolve at import time: at least one of the
two PDF-library names imports, and Pillow imports. -/
def depsOk (d : Deps) : Bool :=
  (d.pymupdfOk || d.fitzOk) && d.pillowOk

/-- The per-file body raises with message `e`: open raises, a page
render raises, or (for a non-empty page list, the only case where the
encoding code runs) the compositing/encoding step raises. -/
def failsWith (f : InputFile) (e : String) : Prop :=
  f.pdf = PdfOutcome.openError e ∨ f.pdf = PdfOutcome.renderError e ∨
    ∃ ps, ps ≠ [] ∧ f.pdf = PdfOutcome.encodeError ps e

/-- The page list of a fully rendered document (empty for the failing
oracle outcomes, which never reach the compositing code). -/
def pagesOf : PdfOutcome → List Page
  | PdfOutcome.ok pages => pages
  | _ => []

/-! ### Helper lemmas -/

/-- When both libraries are available, `_invoke` on a present file list
reduces to the per-file loop. -/
theorem invoke_depsOk {d : Deps} (hd : depsOk d = true) (files : List InputFile) :
    invoke (some files) d = fileMsgs files := by
  have h1 : d.pymupdfOk || d.fitzOk = true := by
    simpa [depsOk, Bool.and_eq_true] using And.left (by simpa [depsOk, Bool.and_eq_true] using hd)
  have h2 : d.pillowOk = true := by
    simpa [depsOk, Bool.and_eq_true] using And.right (by simpa [depsOk, Bool.and_eq_true] using hd)
  simp [invoke, h2]
  cases hp : d.pymupdfOk with
  | true => simp
  | false =>
      cases hf : d.fitzOk with
      | true => simp
      | false => rw [hp, hf] at h1 ; simp at h1

theorem fileMsgs_nil : fileMsgs [] = [] := rfl

theorem fileMsgs_cons (f : InputFile) (fs : List InputFile) :
    fileMsgs (f :: fs) = (processFile f).messages ++ fileMsgs fs := rfl

theorem fileMsgs_append (xs ys : List InputFile) :
    fileMsgs (xs ++ ys) = fileMsgs xs ++ fileMsgs ys := by
  simp [fileMsgs]

theorem pasteOffsets_length (ps : List Page) (y : Nat) :
    (pasteOffsets ps y).length = ps.length := by
  induction ps generalizing y with
  | nil => rfl
  | cons p ps ih => simp [pasteOffsets, ih]

/-- The i-th paste position is x = 0 and y = starting offset plus the
heights of the pages before page i. -/
theorem pasteOffsets_getElem (ps : List Page) (y i : Nat) (h : i < ps.length) :
    (pasteOffsets ps y)[i]! = (0, y + ((ps.take i).map Page.height).sum) := by
  induction ps generalizing y i with
  | nil => exact absurd h (by simp)
  | cons p ps ih =>
      cases i with
      | zero => simp [pasteOffsets]
      | succ j =>
          have hj : j < ps.length := Nat.lt_of_succ_lt_succ h
          have hb : j < (pasteOffsets ps (y + p.height)).length := by
            rw [pasteOffsets_length] ; exact hj
          simp [pasteOffsets, List.getElem!_cons_succ, ih (y + p.height) j hj,
            Nat.add_assoc, Nat.add_comm]

theorem foldl_add_eq_sum (l : List Nat) (a : Nat) :
    l.foldl (· + ·) a = a + l.sum := by
  induction l generalizing a with
  | nil => simp
  | cons x xs ih => simp [ih, Nat.add_assoc]

theorem init_le_foldl_max (l : List Nat) (a : Nat) :
    a ≤ l.foldl Nat.max a := by
  induction l generalizing a with
  | nil => exact Nat.le_refl a
  | cons y ys ih =>
      exact Nat.le_trans (Nat.le_max_left a y) (ih (Nat.max a y))

theorem le_foldl_max (l : List Nat) : ∀ (a x : Nat), x ∈ l → x ≤ l.foldl Nat.max a := by
  induction l with
  | nil =>
      intro a x hx
      exact absurd hx (by simp)
  | cons y ys ih =>
      intro a x hx
      rcases List.mem_cons.mp hx with h | h
      · subst h
        exact Nat.le_trans (Nat.le_max_right a x) (init_le_foldl_max ys (Nat.max a x))
      · exact ih (Nat.max a y) x h

theorem foldl_max_eq_or_mem (l : List Nat) (a : Nat) :
    l.foldl Nat.max a = a ∨ l.foldl Nat.max a ∈ l := by
  induction l generalizing a with
  | nil => exact Or.inl rfl
  | cons y ys ih =>
      rcases ih (Nat.max a y) with h | h
      · rcases Nat.le_total a y with hm | hm
        · refine Or.inr ?_
          rw [List.foldl_cons, h, show Nat.max a y = y from Nat.max_eq_right hm]
          exact List.mem_cons_self y ys
        · refine Or.inl ?_
          rw [List.foldl_cons, h]
          exact Nat.max_eq_left hm
      · exact Or.inr (List.mem_cons_of_mem _ h)

/-- On a non-empty list, the fold computing `total_width` is attained
by some element (as Python's `max` is). -/
theorem foldl_max_mem (l : List Nat) (hne : l ≠ []) :
    l.foldl Nat.max 0 ∈ l := by
  rcases foldl_max_eq_or_mem l 0 with h | h
  · cases l with
    | nil => exact absurd rfl hne
    | cons y ys =>
        have hy : y ≤ 0 := h ▸ le_foldl_max (y :: ys) 0 y (List.mem_cons_self y ys)
        have : y = 0 := Nat.le_zero.mp hy
        rw [h, ← this]
        exact List.mem_cons_self y ys
  · exact h

/-- `rsplit` stem: a filename of the form `a ++ chr(46) ++ b` with no
dot in `b` has stem `a`. -/
theorem stemChars_concat_dot (a bs : List Char) (hb : '.' ∉ bs) :
    stemChars (a ++ '.' :: bs) = a := by
  induction a with
  | nil => simp [stemChars, hb]
  | cons c cs ih =>
      have hmem : '.' ∈ cs ++ '.' :: bs := by simp
      simp only [List.cons_append, stemChars]
      rw [if_neg (by intro hc ; exact hc.2 hmem)]
      exact congrArg (List.cons c) ih

/-- `rsplit` stem: a filename without a dot is its own stem. -/
theorem stemChars_no_dot (cs : List Char) (h : '.' ∉ cs) :
    stemChars cs = cs := by
  induction cs with
  | nil => rfl
  | cons c rest ih =>
      have hc : c ≠ '.' := by intro hc ; exact h (hc ▸ List.mem_cons_self c rest)
      have hrest : '.' ∉ rest := fun hm => h (List.mem_cons_of_mem c hm)
      simp [stemChars, hc, ih hrest]

theorem isEmpty_false_of_ne_nil {ps : List Page} (h : ps ≠ []) :
    ps.isEmpty = false := by
  cases ps with
  | nil => exact absurd rfl h
  | cons p qs => rfl

/-- A file whose body raises yields exactly the Text/Json error pair. -/
theorem failsWith_messages {f : InputFile} {e : String} (hf : failsWith f e) :
    (processFile f).messages = errorMessages f.filename e := by
  rcases hf with h | h | ⟨ps, hps, h⟩
  · simp [processFile, h]
  · simp [processFile, h]
  · simp [processFile, h, isEmpty_false_of_ne_nil hps]

/-- A batch in which every file fully succeeds with a non-empty page
list yields exactly one PNG Blob per file, in input order. -/
theorem fileMsgs_all_ok : ∀ (files : List InputFile),
    (∀ f ∈ files, ∃ pages, f.pdf = PdfOutcome.ok pages ∧ pages ≠ []) →
    fileMsgs files = files.map fun f =>
      Message.blob "image/png" (pngFilename f.filename) (compositeFor (pagesOf f.pdf))
  | [], _ => rfl
  | f :: fs, h => by
      rcases h f (List.mem_cons_self f fs) with ⟨pages, h1, h2⟩
      rw [fileMsgs_cons, List.map_cons,
        fileMsgs_all_ok fs (fun g hg => h g (List.mem_cons_of_mem f hg))]
      simp [processFile, h1, isEmpty_false_of_ne_nil h2, pagesOf]

/-! ### Claims -/

/-- Claim C1, counterexample: with both libraries available, an input
whose `files` list is present but empty produces no messages at all —
in particular not the single no-files Text message the claim requires
for the empty list.  The code guard is `tool_parameters.get(chr(34) ++
files ++ chr(34)) is None`, which an empty list passes. -/
theorem C1_counterexample :
    invoke (some []) ⟨true, true, true, ""⟩ = [] ∧
    ¬ ∃ s, invoke (some []) (⟨true, true, true, ""⟩ : Deps) = [Message.text s] := by
  refine ⟨rfl, ?_⟩
  rintro ⟨s, hs⟩
  simp [invoke, fileMsgs] at hs

/-- Claim C1, amended: if the `files` key is absent (or `None`), the
operation emits exactly one Text message stating that no files were
provided and terminates, emitting no Blob and no Json messages; if the
list is present but empty and the libraries import, the operation
terminates before per-file processing having emitted no messages at
all. -/
theorem C1_empty_or_absent_files (d : Deps) :
    invoke none d =
      [Message.text "No files provided. Please upload PDF files for processing."] ∧
    (depsOk d = true → invoke (some []) d = []) := by
  refine ⟨rfl, fun hd => ?_⟩
  rw [invoke_depsOk hd]
  rfl

/-- Witness for C1 at a concrete dependency state. -/
theorem C1_empty_or_absent_files_witness :
    invoke none (⟨true, true, true, ""⟩ : Deps) =
      [Message.text "No files provided. Please upload PDF files for processing."] ∧
    invoke (some []) (⟨true, true, true, ""⟩ : Deps) = [] :=
  ⟨(C1_empty_or_absent_files ⟨true, true, true, ""⟩).1,
   (C1_empty_or_absent_files ⟨true, true, true, ""⟩).2 rfl⟩

/-- Claim C2: a file whose decode/render raises yields exactly one Text
message `Error processing filename: error` followed by one Json message
mapping the filename to the error, and the surrounding files of the
batch are processed normally, in order, before and after it. -/
theorem C2_error_isolation (d : Deps) (pre post : List InputFile)
    (f : InputFile) (e : String) (hd : depsOk d = true) (hf : failsWith f e) :
    invoke (some (pre ++ f :: post)) d =
      fileMsgs pre ++
        Message.text ("Error processing " ++ f.filename ++ ": " ++ e) ::
        Message.json f.filename e :: fileMsgs post := by
  rw [invoke_depsOk hd, fileMsgs_append, fileMsgs_cons, failsWith_messages hf]
  simp [errorMessages]

/-- Witness for C2: a corrupt file between two good single-page files;
the three files' messages appear in order, the failing one contributing
its Text/Json pair. -/
theorem C2_error_isolation_witness :
    invoke (some ([⟨"a.pdf", PdfOutcome.ok [⟨10, 20⟩]⟩] ++
        ⟨"bad.pdf", PdfOutcome.openError "corrupt"⟩ ::
        [⟨"c.pdf", PdfOutcome.ok [⟨5, 6⟩]⟩])) ⟨true, true, true, ""⟩ =
      fileMsgs [⟨"a.pdf", PdfOutcome.ok [⟨10, 20⟩]⟩] ++
        Message.text ("Error processing " ++ "bad.pdf" ++ ": " ++ "corrupt") ::
        Message.json "bad.pdf" "corrupt" ::
        fileMsgs [⟨"c.pdf", PdfOutcome.ok [⟨5, 6⟩]⟩] :=
  C2_error_isolation ⟨true, true, true, ""⟩ _ _ _ "corrupt" rfl (Or.inl rfl)

/-- Claim C3: for a successfully decoded document with at least one
page, the Blob carries a composite whose height is the sum of the page
heights, whose width is the maximum of the page widths (an upper bound
attained by some page), and whose i-th paste position is x = 0 and
y = the sum of the heights of the pages before page i — so page 0 is
pasted at the top. -/
theorem C3_composite_geometry (f : InputFile) (pages : List Page)
    (h1 : f.pdf = PdfOutcome.ok pages) (h2 : pages ≠ []) :
    ∃ img : Composite,
      (processFile f).messages =
        [Message.blob "image/png" (pngFilename f.filename) img] ∧
      img.height = (pages.map Page.height).sum ∧
      (∀ p ∈ pages, p.width ≤ img.width) ∧
      (∃ p ∈ pages, p.width = img.width) ∧
      img.pastes.length = pages.length ∧
      (∀ i, i < pages.length →
        img.pastes[i]! = (0, ((pages.take i).map Page.height).sum)) := by
  refine ⟨compositeFor pages, ?_, ?_, ?_, ?_, ?_, ?_⟩
  · simp [processFile, h1, isEmpty_false_of_ne_nil h2]
  · simp [compositeFor, foldl_add_eq_sum]
  · intro p hp
    exact le_foldl_max (pages.map Page.width) 0 p.width (List.mem_map_of_mem Page.width hp)
  · have hm := foldl_max_mem (pages.map Page.width) (by simpa using h2)
    rcases List.mem_map.mp hm with ⟨p, hp, hpw⟩
    exact ⟨p, hp, hpw⟩
  · simp [compositeFor, pasteOffsets_length]
  · intro i hi
    simpa [compositeFor] using pasteOffsets_getElem pages 0 i hi

/-- Witness for C3: a two-page document with pages 100 by 200 and 50
by 30 gives a 100 by 230 composite pasted at y = 0 and y = 200. -/
theorem C3_composite_geometry_witness :
    ∃ img : Composite,
      (processFile ⟨"report.pdf", PdfOutcome.ok [⟨100, 200⟩, ⟨50, 30⟩]⟩).messages =
        [Message.blob "image/png" (pngFilename "report.pdf") img] ∧
      img.height = (([⟨100, 200⟩, ⟨50, 30⟩] : List Page).map Page.height).sum ∧
      (∀ p ∈ ([⟨100, 200⟩, ⟨50, 30⟩] : List Page), p.width ≤ img.width) ∧
      (∃ p ∈ ([⟨100, 200⟩, ⟨50, 30⟩] : List Page), p.width = img.width) ∧
      img.pastes.length = ([⟨100, 200⟩, ⟨50, 30⟩] : List Page).length ∧
      (∀ i, i < ([⟨100, 200⟩, ⟨50, 30⟩] : List Page).length →
        img.pastes[i]! =
          (0, ((([⟨100, 200⟩, ⟨50, 30⟩] : List Page).take i).map Page.height).sum)) :=
  C3_composite_geometry ⟨"report.pdf", PdfOutcome.ok [⟨100, 200⟩, ⟨50, 30⟩]⟩
    [⟨100, 200⟩, ⟨50, 30⟩] rfl (by decide)

/-- Claim C4, code evaluation: when opening succeeds but rendering a
page raises, the per-file handler reports the error but `doc.close()`
is never reached (it sits after the page loop, not in a `finally`), so
the document handle leaks; on the fully successful path it is reached.
This contradicts the specified release-on-both-paths behavior. -/
theorem C4_close_skipped_on_render_failure :
    (processFile ⟨"doc.pdf", PdfOutcome.renderError "render failed"⟩).opened = true ∧
    (processFile ⟨"doc.pdf", PdfOutcome.renderError "render failed"⟩).closed = false ∧
    (processFile ⟨"doc.pdf", PdfOutcome.ok [⟨10, 20⟩]⟩).closed = true :=
  ⟨rfl, rfl, rfl⟩

/-- Claim C5: a file decoding to zero pages yields exactly one Text
message `No pages found in filename` — no Blob, no Json — and the
surrounding files of the batch are still processed in order. -/
theorem C5_zero_pages (d : Deps) (pre post : List InputFile) (f : InputFile)
    (hd : depsOk d = true) (hf : f.pdf = PdfOutcome.ok []) :
    invoke (some (pre ++ f :: post)) d =
      fileMsgs pre ++
        Message.text ("No pages found in " ++ f.filename) :: fileMsgs post := by
  rw [invoke_depsOk hd, fileMsgs_append, fileMsgs_cons]
  simp [processFile, hf]

/-- Witness for C5: an empty document between two good files. -/
theorem C5_zero_pages_witness :
    invoke (some ([⟨"a.pdf", PdfOutcome.ok [⟨10, 20⟩]⟩] ++
        ⟨"empty.pdf", PdfOutcome.ok []⟩ ::
        [⟨"c.pdf", PdfOutcome.ok [⟨5, 6⟩]⟩])) ⟨true, true, true, ""⟩ =
      fileMsgs [⟨"a.pdf", PdfOutcome.ok [⟨10, 20⟩]⟩] ++
        Message.text ("No pages found in " ++ "empty.pdf") ::
        fileMsgs [⟨"c.pdf", PdfOutcome.ok [⟨5, 6⟩]⟩] :=
  C5_zero_pages ⟨true, true, true, ""⟩ _ _ _ rfl rfl

/-- Claim C6: the Blob metadata filename is the original filename with
the text after the last dot stripped and replaced by `.png`: for any
filename of the form `a ++ dot ++ b` with no dot in `b` the Blob is
named `a ++ .png`; in particular `report.pdf` maps to `report.png` and
`scan.v2.pdf` maps to `scan.v2.png`. -/
theorem C6_filename_mapping (f : InputFile) (pages : List Page) (a b : String)
    (h1 : f.pdf = PdfOutcome.ok pages) (h2 : pages ≠ [])
    (h3 : f.filename = a ++ "." ++ b) (h4 : '.' ∉ b.data) :
    (∃ img, (processFile f).messages =
      [Message.blob "image/png" (a ++ ".png") img]) ∧
    pngFilename "report.pdf" = "report.png" ∧
    pngFilename "scan.v2.pdf" = "scan.v2.png" := by
  refine ⟨⟨compositeFor pages, ?_⟩, by decide, by decide⟩
  have hstem : pngFilename f.filename = a ++ ".png" := by
    rw [h3]
    unfold pngFilename
    have hdata : (a ++ "." ++ b).data = a.data ++ '.' :: b.data := by
      simp [String.data_append]
    rw [hdata, stemChars_concat_dot a.data b.data h4]
  simp [processFile, h1, isEmpty_false_of_ne_nil h2, hstem]

/-- Witness for C6 on the filename `scan.v2.pdf`, whose stem keeps the
earlier dot. -/
theorem C6_filename_mapping_witness :
    (∃ img, (processFile ⟨"scan.v2.pdf", PdfOutcome.ok [⟨10, 20⟩]⟩).messages =
      [Message.blob "image/png" ("scan.v2" ++ ".png") img]) ∧
    pngFilename "report.pdf" = "report.png" ∧
    pngFilename "scan.v2.pdf" = "scan.v2.png" :=
  C6_filename_mapping ⟨"scan.v2.pdf", PdfOutcome.ok [⟨10, 20⟩]⟩ [⟨10, 20⟩]
    "scan.v2" "pdf" rfl (by decide) (by decide) (by decide)

/-- Claim C7: when every file of a batch fully succeeds with at least
one page, the output is exactly one Blob per input file, in input
order, each with mime type `image/png`. -/
theorem C7_one_blob_per_file (d : Deps) (files : List InputFile)
    (hd : depsOk d = true) (_hne : files ≠ [])
    (h : ∀ f ∈ files, ∃ pages, f.pdf = PdfOutcome.ok pages ∧ pages ≠ []) :
    invoke (some files) d = files.map fun f =>
      Message.blob "image/png" (pngFilename f.filename)
        (compositeFor (pagesOf f.pdf)) := by
  rw [invoke_depsOk hd]
  exact fileMsgs_all_ok files h

/-- Witness for C7 on a two-file batch of single-page documents. -/
theorem C7_one_blob_per_file_witness :
    invoke (some [⟨"a.pdf", PdfOutcome.ok [⟨10, 20⟩]⟩,
        ⟨"b.pdf", PdfOutcome.ok [⟨5, 6⟩]⟩]) ⟨true, true, true, ""⟩ =
      ([⟨"a.pdf", PdfOutcome.ok [⟨10, 20⟩]⟩,
        ⟨"b.pdf", PdfOutcome.ok [⟨5, 6⟩]⟩] : List InputFile).map fun f =>
        Message.blob "image/png" (pngFilename f.filename)
          (compositeFor (pagesOf f.pdf)) :=
  C7_one_blob_per_file ⟨true, true, true, ""⟩ _ rfl (by simp)
    (by
      intro f hf
      rcases List.mem_cons.mp hf with h | h
      · exact ⟨[⟨10, 20⟩], by rw [h], by simp⟩
      · rcases List.mem_cons.mp h with h2 | h2
        · exact ⟨[⟨5, 6⟩], by rw [h2], by simp⟩
        · exact absurd h2 (by simp))

/-- Claim C8: if both PDF-library import names fail, or Pillow is not
importable, the whole run emits a single Text message and stops before
any per-file processing: no Blob and no Json appears in the output. -/
theorem C8_missing_dependency (files : List InputFile) (d : Deps)
    (h : (d.pymupdfOk = false ∧ d.fitzOk = false) ∨ d.pillowOk = false) :
    ∃ s, invoke (some files) d = [Message.text s] := by
  by_cases hp : (!d.pymupdfOk && !d.fitzOk) = true
  · exact ⟨"Error: Required library not installed. " ++ d.fitzErr, by simp [invoke, hp]⟩
  · have h3 : d.pillowOk = false := by
      rcases h with ⟨h1, h2⟩ | h3
      · exact absurd (by simp [h1, h2]) hp
      · exact h3
    refine ⟨"Error: Pillow library not installed. Please install it with \x27pip install Pillow\x27.", ?_⟩
    have hp2 : (!d.pymupdfOk && !d.fitzOk) = false := by
      cases hv : (!d.pymupdfOk && !d.fitzOk) with
      | true => exact absurd hv hp
      | false => rfl
    simp [invoke, hp2, h3]

/-- Witness for C8: Pillow missing while the render library imports. -/
theorem C8_missing_dependency_witness :
    ∃ s, invoke (some [⟨"a.pdf", PdfOutcome.ok [⟨10, 20⟩]⟩])
      (⟨true, true, false, ""⟩ : Deps) = [Message.text s] :=
  C8_missing_dependency [⟨"a.pdf", PdfOutcome.ok [⟨10, 20⟩]⟩]
    ⟨true, true, false, ""⟩ (Or.inr rfl)

/-- Claim C9: a filename containing no dot keeps its whole name and
gets `.png` appended, because `rsplit` on a dot-free string returns the
whole string. -/
theorem C9_no_dot_filename (f : InputFile) (pages : List Page)
    (h1 : f.pdf = PdfOutcome.ok pages) (h2 : pages ≠ [])
    (h3 : '.' ∉ f.filename.data) :
    ∃ img, (processFile f).messages =
      [Message.blob "image/png" (f.filename ++ ".png") img] := by
  have hname : pngFilename f.filename = f.filename ++ ".png" := by
    unfold pngFilename
    rw [stemChars_no_dot _ h3]
  exact ⟨compositeFor pages,
    by simp [processFile, h1, isEmpty_false_of_ne_nil h2, hname]⟩

/-- Witness for C9 on the extensionless filename `document`. -/
theorem C9_no_dot_filename_witness :
    ∃ img, (processFile ⟨"document", PdfOutcome.ok [⟨10, 20⟩]⟩).messages =
      [Message.blob "image/png" ("document" ++ ".png") img] :=
  C9_no_dot_filename ⟨"document", PdfOutcome.ok [⟨10, 20⟩]⟩ [⟨10, 20⟩]
    rfl (by decide) (by decide)

/-- Claim C10: every file's message sub-sequence has exactly one of
three mutually exclusive shapes — a single PNG Blob (success), a single
Text (zero pages), or a Text immediately followed by a Json (failure);
in particular no file yields both a Blob and an error Json. -/
theorem C10_per_file_shapes (f : InputFile) :
    (∃ name img, (processFile f).messages = [Message.blob "image/png" name img]) ∨
    (∃ s, (processFile f).messages = [Message.text s]) ∨
    (∃ s n e, (processFile f).messages = [Message.text s, Message.json n e]) := by
  cases hp : f.pdf with
  | openError e =>
      exact Or.inr (Or.inr ⟨"Error processing " ++ f.filename ++ ": " ++ e,
        f.filename, e, by simp [processFile, hp, errorMessages]⟩)
  | renderError e =>
      exact Or.inr (Or.inr ⟨"Error processing " ++ f.filename ++ ": " ++ e,
        f.filename, e, by simp [processFile, hp, errorMessages]⟩)
  | encodeError ps e =>
      cases ps with
      | nil =>
          exact Or.inr (Or.inl ⟨"No pages found in " ++ f.filename,
            by simp [processFile, hp]⟩)
      | cons q qs =>
          exact Or.inr (Or.inr ⟨"Error processing " ++ f.filename ++ ": " ++ e,
            f.filename, e, by simp [processFile, hp, errorMessages]⟩)
  | ok ps =>
      cases ps with
      | nil =>
          exact Or.inr (Or.inl ⟨"No pages found in " ++ f.filename,
            by simp [processFile, hp]⟩)
      | cons q qs =>
          exact Or.inl ⟨pngFilename f.filename, compositeFor (q :: qs),
            by simp [processFile, hp]⟩

end Pdf2image
